import Mathlib

/-!
Verification development for the cloudflare-speed-cli measurement engine.

The Rust source is shallowly embedded: machine floats (f64) become exact
rationals (with an explicit not-a-number constructor where the source tests
for NaN), u64 counters become Nat, Instant/Duration become rational
millisecond counts, and the concurrent loops become explicit state-passing
functions over per-iteration oracle records that capture what the loop reads
from its environment (shared flags, network results).
-/

namespace CfSpeed

/-! ## Statistics (src/metrics.rs) -/

/-- Ascending stable sort, the model of Rust slice sort_by with a total
comparison (partial_cmp followed by unwrap on f64 values). -/
def sortAsc (l : List ℚ) : List ℚ :=
  List.insertionSort (fun a b => a ≤ b) l

/-- Embedding of compute_latency_metrics from src/metrics.rs (the function
compute_metrics called elsewhere in the crate has this same body; the twin
compute_throughput_metrics applies identical logic to the second components
of its points). Returns (mean, median, p25, p75). -/
def compute_latency_metrics (samples : List ℚ) : Option (ℚ × ℚ × ℚ × ℚ) :=
  if samples.length < 2 then none
  else
    let sorted := sortAsc samples
    let n := sorted.length
    let mean := samples.sum / (samples.length : ℚ)
    some (mean, sorted.getD (n / 2) 0, sorted.getD (n / 4) 0, sorted.getD (3 * n / 4) 0)

/-- Embedding of compute_throughput_metrics from src/metrics.rs: projects the
second component of each point and applies the same metric computation. -/
def compute_throughput_metrics (points : List (ℚ × ℚ)) : Option (ℚ × ℚ × ℚ × ℚ) :=
  if points.length < 2 then none
  else
    let values := points.map Prod.snd
    let sorted := sortAsc values
    let n := sorted.length
    let mean := values.sum / (values.length : ℚ)
    some (mean, sorted.getD (n / 2) 0, sorted.getD (n / 4) 0, sorted.getD (3 * n / 4) 0)

/-! ## Data model (src/model.rs) -/

/-- Embedding of the LatencySummary struct of src/model.rs. Optional f64
fields become Option ℚ. -/
structure LatencySummary where
  sent : Nat
  received : Nat
  loss : ℚ
  min_ms : Option ℚ
  mean_ms : Option ℚ
  median_ms : Option ℚ
  p25_ms : Option ℚ
  p75_ms : Option ℚ
  max_ms : Option ℚ
  jitter_ms : Option ℚ
  deriving Repr, DecidableEq

/-- Embedding of the Default impl for LatencySummary in src/model.rs. -/
def LatencySummary.default : LatencySummary :=
  { sent := 0, received := 0, loss := 0, min_ms := none, mean_ms := none,
    median_ms := none, p25_ms := none, p75_ms := none, max_ms := none,
    jitter_ms := none }

/-- Embedding of LatencySummary::failed of src/model.rs: the Default value
with the loss field overridden to 1.0. -/
def LatencySummary.failed : LatencySummary :=
  { LatencySummary.default with loss := 1 }

/-- Embedding of the ThroughputSummary struct of src/model.rs. -/
structure ThroughputSummary where
  bytes : Nat
  duration_ms : Nat
  mbps : ℚ
  mean_mbps : Option ℚ
  median_mbps : Option ℚ
  p25_mbps : Option ℚ
  p75_mbps : Option ℚ
  deriving Repr, DecidableEq

/-- Modelled from the spec: src/stats.rs (latency_summary_from_samples) is not
under src/, only its callers in src/engine/latency.rs and
src/engine/turn_udp.rs are. Per the spec, the summary carries the sent and
received counts, loss = (sent-received)/sent when sent > 0 and 0 otherwise,
RTT statistics from the Statistics Engine over the successful samples, and a
jitter value (the callers pass an OnlineStats stddev, taken here as an
argument since OnlineStats is likewise not under src/). -/
def latency_summary_from_samples (sent received : Nat) (samples : List ℚ)
    (jitter : ℚ) : LatencySummary :=
  let loss : ℚ := if 0 < sent then ((sent : ℚ) - (received : ℚ)) / (sent : ℚ) else 0
  match compute_latency_metrics samples with
  | some (mean, med, p25, p75) =>
    { sent := sent, received := received, loss := loss,
      min_ms := samples.min?, mean_ms := some mean, median_ms := some med,
      p25_ms := some p25, p75_ms := some p75, max_ms := samples.max?,
      jitter_ms := some jitter }
  | none =>
    { sent := sent, received := received, loss := loss,
      min_ms := samples.min?, mean_ms := none, median_ms := none,
      p25_ms := none, p75_ms := none, max_ms := samples.max?,
      jitter_ms := if samples.isEmpty then none else some jitter }

/-! ## Throughput summary and steady-state window (src/engine/throughput.rs)

Durations and timestamps are rational millisecond counts; Duration
as_secs_f64 is division by 1000 and as_millis is the integer floor. -/

/-- Embedding of throughput_summary from src/engine/throughput.rs. The
argument durMs is the Duration argument in milliseconds. -/
def throughput_summary (bytes : Nat) (durMs : ℚ) (mbps_samples : List ℚ) :
    ThroughputSummary :=
  let secs : ℚ := max (durMs / 1000) (1 / 1000000000)
  let fb : ℚ := (bytes : ℚ) / secs * 8 / 1000000
  let m := (compute_latency_metrics mbps_samples).getD (fb, fb, fb, fb)
  { bytes := bytes, duration_ms := (Int.floor durMs).toNat, mbps := m.1,
    mean_mbps := some m.1, median_mbps := some m.2.1,
    p25_mbps := some m.2.2.1, p75_mbps := some m.2.2.2 }

/-- Embedding of estimate_steady_window from src/engine/throughput.rs.
Samples are (timestamp in ms, cumulative byte count) pairs; totalMs is the
total phase duration in ms. Rust position().unwrap_or(0) becomes
findIdx?.getD 0, saturating_duration_since becomes a clamp at 0, and Nat
subtraction already saturates like u64 saturating_sub. -/
def estimate_steady_window (samples : List (ℚ × Nat)) (totalMs : ℚ) :
    Option (Nat × ℚ) :=
  if samples.length < 2 then none
  else
    let first := samples.getD 0 (0, 0)
    let ignore : ℚ := max (totalMs * (1 / 5)) 1000
    let t0 := first.1 + ignore
    let start_idx := (samples.findIdx? (fun p => decide (t0 ≤ p.1))).getD 0
    let s := samples.getD start_idx (0, 0)
    let e := samples.getLastD (0, 0)
    let dt : ℚ := max (e.1 - s.1) 0
    if Int.floor dt < 200 then none else some (e.2 - s.2, dt)

/-- Embedding of the caller fallback at the end of both throughput phases in
src/engine/throughput.rs: the steady-window result, or on none the raw
(total bytes, full elapsed duration). -/
def steady_or_fallback (samples : List (ℚ × Nat)) (durMs : ℚ)
    (bytes_total : Nat) : Nat × ℚ :=
  (estimate_steady_window samples durMs).getD (bytes_total, durMs)

/-- Embedding of the final-summary computation of a throughput phase in
src/engine/throughput.rs: steady window (or fallback) feeding
throughput_summary together with the per-tick mbps series. -/
def phase_final_summary (samples : List (ℚ × Nat)) (durMs : ℚ)
    (bytes_total : Nat) (mbps_samples : List ℚ) : ThroughputSummary :=
  let w := steady_or_fallback samples durMs bytes_total
  throughput_summary w.1 w.2 mbps_samples

/-- Stated from the words of claim C2 (refinement check): the estimator
reports no window exactly when there are fewer than 2 samples or the span
remaining after discarding the first max(20% of duration, 1s) of samples is
under 200ms. The post-discard window is the set of samples at or after
first timestamp + discard threshold; its span is last minus first of that
set (0 when the set is empty or a singleton). -/
def claimedNoWindow (samples : List (ℚ × Nat)) (totalMs : ℚ) : Bool :=
  if samples.length < 2 then true
  else
    let first := samples.getD 0 (0, 0)
    let ignore : ℚ := max (totalMs * (1 / 5)) 1000
    let t0 := first.1 + ignore
    let post := samples.filter (fun p => decide (t0 ≤ p.1))
    let span : ℚ := (post.getLastD (0, 0)).1 - (post.getD 0 (0, 0)).1
    decide (span < 200)

/-- Window start index actually used by the estimator: the first sample at
or after first timestamp + max(20% of duration, 1s) when one exists, and
otherwise index 0 (the unwrap_or(0) of the source). -/
def window_start_idx (samples : List (ℚ × Nat)) (totalMs : ℚ) : Nat :=
  (samples.findIdx? (fun p =>
    decide ((samples.getD 0 (0, 0)).1 + max (totalMs * (1 / 5)) 1000 ≤ p.1))).getD 0

/-- Time span of the window actually used by the estimator, from the
window-start sample to the last sample (clamped at 0). -/
def window_span (samples : List (ℚ × Nat)) (totalMs : ℚ) : ℚ :=
  max ((samples.getLastD (0, 0)).1
    - (samples.getD (window_start_idx samples totalMs) (0, 0)).1) 0

/-- Byte delta of the window actually used by the estimator. -/
def window_delta (samples : List (ℚ × Nat)) (totalMs : ℚ) : Nat :=
  (samples.getLastD (0, 0)).2
    - (samples.getD (window_start_idx samples totalMs) (0, 0)).2

/-! ## Download backoff (src/engine/throughput.rs download worker) -/

/-- Floor for the per-request download size, src/engine/throughput.rs. -/
def MIN_DOWNLOAD_BYTES_PER_REQ : Nat := 100000

/-- Response status observed by a download worker for one request: a network
error, or an HTTP status code. -/
inductive RespStatus where
  | netErr : RespStatus
  | http : Nat → RespStatus
  deriving Repr, DecidableEq

/-- Embedding of reqwest StatusCode::is_success: code in 200..=299. -/
def isSuccessCode (c : Nat) : Bool := decide (200 ≤ c ∧ c < 300)

/-- Embedding of one download-worker response handling step from
src/engine/throughput.rs as far as the local bytes_per_req is concerned:
returns the new bytes_per_req and whether the informational backoff event
was emitted. On a network error or a success status nothing changes; on a
non-success status other than 429 nothing changes; on 429 the size is
halved with a floor of MIN_DOWNLOAD_BYTES_PER_REQ, assigned (and the event
emitted) only when that value is an actual decrease. -/
def download_backoff_step (bpr : Nat) (s : RespStatus) : Nat × Bool :=
  match s with
  | RespStatus.netErr => (bpr, false)
  | RespStatus.http c =>
    if isSuccessCode c then (bpr, false)
    else if c = 429 then
      let next := max (bpr / 2) MIN_DOWNLOAD_BYTES_PER_REQ
      if next < bpr then (next, true) else (bpr, false)
    else (bpr, false)

/-- Iterated download-backoff over a sequence of response statuses. -/
def download_backoff_run (bpr : Nat) : List RespStatus → Nat
  | [] => bpr
  | s :: rest => download_backoff_run (download_backoff_step bpr s).1 rest

/-! ## STUN wire format (src/engine/turn_udp.rs) -/

/-- Embedding of build_stun_binding_request from src/engine/turn_udp.rs:
type 0x0001, length 0, magic cookie 0x2112A442, then the 12 transaction-id
bytes. Bytes are Nat values below 256. -/
def build_stun_binding_request (txid : List Nat) : List Nat :=
  [0x00, 0x01, 0x00, 0x00, 0x21, 0x12, 0xA4, 0x42] ++ txid

/-- Embedding of is_stun_binding_response from src/engine/turn_udp.rs. -/
def is_stun_binding_response (buf : List Nat) (txid : List Nat) : Bool :=
  if buf.length < 20 then false
  else if ¬(buf.getD 0 0 = 0x01 ∧ buf.getD 1 0 = 0x01) then false
  else if ¬(buf.getD 4 0 = 0x21 ∧ buf.getD 5 0 = 0x12 ∧ buf.getD 6 0 = 0xA4
      ∧ buf.getD 7 0 = 0x42) then false
  else decide ((buf.drop 8).take 12 = txid)

/-! ## MOS scoring (src/engine/turn_udp.rs) -/

/-- Model of an f64 input: not-a-number, or a finite value as an exact
rational. -/
inductive F64 where
  | nan : F64
  | val : ℚ → F64
  deriving Repr, DecidableEq

/-- Rust f64 clamp on finite values: max with lo, then min with hi. -/
def rclamp (x lo hi : ℚ) : ℚ := min (max x lo) hi

/-- Embedding of calculate_mos from src/engine/turn_udp.rs. Decimal f64
literals of the source become the exact rationals they denote in the
source text. -/
def calculate_mos (rtt_ms jitter_ms loss_pct : F64) : Option ℚ :=
  match rtt_ms, jitter_ms, loss_pct with
  | F64.nan, _, _ => none
  | _, F64.nan, _ => none
  | _, _, F64.nan => none
  | F64.val rtt, F64.val jit, F64.val loss =>
    if rtt < 0 ∨ jit < 0 ∨ loss < 0 then none
    else
      let d := rtt / 2 + 2 * jit
      let ld := min d (1773 / 10)
      let r0 := 932 / 10 - ld / 40
      let ie_eff := 30 * min (loss / 100) 1
      let r1 := r0 - ie_eff
      let r := rclamp r1 0 100
      let mos :=
        if r < 0 then 1
        else if 100 < r then 45 / 10
        else 1 + (35 / 1000) * r + (7 / 1000000) * r * (r - 60) * (100 - r)
      some (rclamp mos 1 5)

/-! ## Latency prober loop (src/engine/latency.rs)

The loop of run_latency_probes is embedded as a state-passing function over
a list of per-iteration oracles. Each oracle records what that iteration of
the loop reads from its environment: whether start.elapsed() has reached
total_duration at the loop head, the value of the shared cancel flag read
after the pause-wait inner loop, and the probe outcome (Ok with an RTT in
ms and optional inline server metadata, or Err). The shared paused flag
only delays iterations and never changes what is emitted, so it needs no
oracle field. -/

/-- Oracle for one iteration of the latency-probe loop. -/
structure ProbeIter where
  timeUp : Bool
  cancelSeen : Bool
  probe : Option (ℚ × Bool)
  deriving Repr, DecidableEq

/-- Events of the engine event stream that the latency loop emits
(src/model.rs TestEvent, restricted to the variants this loop sends). -/
inductive LatEvent where
  | latencySample : Option ℚ → Bool → LatEvent
  | metaInfo : LatEvent
  deriving Repr, DecidableEq

/-- Accumulated result of the latency-probe loop: the sent and received
counters, the successful samples in order, the emitted events in order,
and the meta_sent flag. -/
structure LatState where
  sent : Nat
  received : Nat
  samples : List ℚ
  events : List LatEvent
  metaSent : Bool
  deriving Repr, DecidableEq

/-- Initial latency-loop state. -/
def latInit : LatState :=
  { sent := 0, received := 0, samples := [], events := [], metaSent := false }

/-- Embedding of the body of one non-cancelled, non-timed-out iteration of
the while loop of run_latency_probes in src/engine/latency.rs: count the
attempt, then on probe success record the sample, forward inline metadata
once in the idle phase, and emit a successful LatencySample event; on
probe failure emit a failed LatencySample event. The isIdle flag is
phase == Phase::IdleLatency, which gates the one-shot MetaInfo
forwarding. -/
def latStep (isIdle : Bool) (it : ProbeIter) (st : LatState) : LatState :=
  match it.probe with
  | some (ms, metaAvail) =>
    let ev1 : List LatEvent :=
      if ¬st.metaSent ∧ isIdle = true ∧ metaAvail = true then
        [LatEvent.metaInfo] else []
    { sent := st.sent + 1
      received := st.received + 1
      samples := st.samples ++ [ms]
      events := st.events ++ ev1 ++ [LatEvent.latencySample (some ms) true]
      metaSent := st.metaSent || (isIdle && metaAvail) }
  | none =>
    { sent := st.sent + 1
      received := st.received
      samples := st.samples
      events := st.events ++ [LatEvent.latencySample none false]
      metaSent := st.metaSent }

/-- Embedding of the while loop of run_latency_probes in
src/engine/latency.rs: stop when the total duration has elapsed or the
cancel flag is observed, otherwise run one probe attempt. -/
def latLoop (isIdle : Bool) : List ProbeIter → LatState → LatState
  | [], st => st
  | it :: rest, st =>
    if it.timeUp then st
    else if it.cancelSeen then st
    else latLoop isIdle rest (latStep isIdle it st)

/-- Full run of the latency prober from the initial state, returning the
final loop state; the returned LatencySummary is
latency_summary_from_samples over its fields (src/engine/latency.rs
lines 91-96). -/
def run_latency_probes (isIdle : Bool) (iters : List ProbeIter) : LatState :=
  latLoop isIdle iters latInit

/-- Number of LatencySample events in an event list. -/
def countSamples (evs : List LatEvent) : Nat :=
  evs.countP (fun e => match e with
    | LatEvent.latencySample _ _ => true
    | _ => false)

/-- Summary returned by run_latency_probes (src/engine/latency.rs lines
91-96): latency_summary_from_samples over the final counters and samples
of the loop, with the OnlineStats stddev passed as the jitter argument. -/
def run_latency_probes_summary (isIdle : Bool) (iters : List ProbeIter)
    (stddev : ℚ) : LatencySummary :=
  latency_summary_from_samples (run_latency_probes isIdle iters).sent
    (run_latency_probes isIdle iters).received
    (run_latency_probes isIdle iters).samples stddev

/-! ## UDP loss-probe loop (src/engine/turn_udp.rs)

The attempt loop of run_udp_like_loss_probe is embedded over a list of
per-attempt oracles: the 12 random transaction-id bytes drawn for the
attempt, the datagram received before the timeout (none on timeout), and
the measured elapsed RTT. The HashMap from transaction id to sequence
number is an association list with insert-at-front (most recent binding
shadows older ones, matching HashMap insert overwrite on lookup). -/

/-- Oracle for one attempt of the UDP loss-probe loop. -/
structure UdpIter where
  txid : List Nat
  resp : Option (List Nat)
  rtt : ℚ
  deriving Repr, DecidableEq

/-- State of the UDP loss-probe loop. -/
structure UdpState where
  sent : Nat
  received : Nat
  samples : List ℚ
  txidToSeq : List (List Nat × Nat)
  nextExpectedSeq : Nat
  outOfOrder : Nat
  deriving Repr, DecidableEq

/-- Initial UDP loss-probe state: counters zero, empty map,
next_expected_seq = 1. -/
def udpInit : UdpState :=
  { sent := 0, received := 0, samples := [], txidToSeq := [],
    nextExpectedSeq := 1, outOfOrder := 0 }

/-- Lookup in the transaction-id map (HashMap::get). -/
def lookupSeq (m : List (List Nat × Nat)) (k : List Nat) : Option Nat :=
  (m.find? (fun p => p.1 == k)).map Prod.snd

/-- Embedding of one attempt (body of the for loop over seq) of
run_udp_like_loss_probe in src/engine/turn_udp.rs. A received datagram is
accepted only if is_stun_binding_response holds for this attempt's
transaction id; on acceptance the sequence-number lookup drives the
out-of-order classification. -/
def udpStep (st : UdpState) (seq : Nat) (it : UdpIter) : UdpState :=
  let st1 := { st with
    sent := st.sent + 1
    txidToSeq := (it.txid, seq) :: st.txidToSeq }
  match it.resp with
  | some buf =>
    if is_stun_binding_response buf it.txid then
      let st2 := { st1 with
        received := st1.received + 1
        samples := st1.samples ++ [it.rtt] }
      match lookupSeq st2.txidToSeq it.txid with
      | some pktSeq =>
        if pktSeq < st2.nextExpectedSeq then
          { st2 with outOfOrder := st2.outOfOrder + 1 }
        else
          { st2 with nextExpectedSeq := pktSeq + 1 }
      | none => st2
    else st1
  | none => st1

/-- Embedding of the attempt loop: sequence numbers are 1-based and advance
by one per attempt. -/
def udpLoop : List UdpIter → Nat → UdpState → UdpState
  | [], _, st => st
  | it :: rest, seq, st => udpLoop rest (seq + 1) (udpStep st seq it)

/-- Full run of the UDP loss-probe attempt loop from the initial state with
the first attempt numbered 1 (for seq in 1..=attempts). -/
def run_udp_like_loss_probe (iters : List UdpIter) : UdpState :=
  udpLoop iters 1 udpInit

/-- Embedding of the out-of-order percentage computation of
run_udp_like_loss_probe: 0 when no packet was received, else
out_of_order * 100 / received. -/
def out_of_order_pct (st : UdpState) : ℚ :=
  if st.received = 0 then 0
  else (st.outOfOrder : ℚ) * 100 / (st.received : ℚ)

/-- Summary built at the end of run_udp_like_loss_probe
(src/engine/turn_udp.rs line 285): latency_summary_from_samples over the
final counters and samples of the attempt loop, with the OnlineStats
stddev passed as the jitter argument. -/
def run_udp_probe_summary (iters : List UdpIter) (stddev : ℚ) :
    LatencySummary :=
  latency_summary_from_samples (run_udp_like_loss_probe iters).sent
    (run_udp_like_loss_probe iters).received
    (run_udp_like_loss_probe iters).samples stddev

/-! ## Lifecycle controller (src/orchestrator/controller.rs)

The select loop of run_controller is embedded as a step function over the
controller state, driven by stimuli: a received UI command (or None for a
closed command channel), an observed run completion (the join branch,
which can only fire while a run context with a live join handle exists),
and a watchdog tick. Times are rational millisecond counts. -/

/-- UI commands, src/orchestrator/controller.rs UiCommand. -/
inductive UiCommand where
  | pause : Bool → UiCommand
  | restart : UiCommand
  | quit : UiCommand
  deriving Repr, DecidableEq

/-- Outcome of awaiting the run join handle: the run returned Ok, the run
returned Err, or the join itself failed. -/
inductive JoinOutcome where
  | okResult : JoinOutcome
  | runErr : JoinOutcome
  | joinErr : JoinOutcome
  deriving Repr, DecidableEq

/-- Stimuli driving the controller select loop. Command stimuli carry the
current time (Instant::now()) used to arm the cancel watchdog deadline. -/
inductive Stim where
  | cmd : ℚ → Option UiCommand → Stim
  | runDone : JoinOutcome → Stim
  | tick : ℚ → Stim
  deriving Repr, DecidableEq

/-- Externally visible actions of one controller step, in emission order. -/
inductive Act where
  | sendPauseCtl : Bool → Act
  | sendCancelCtl : Act
  | infoMsg : Act
  | startRunAct : Act
  | emitRunCompleted : Act
  | emitRunFailed : Act
  | stillCancelling : Act
  deriving Repr, DecidableEq

/-- Controller state: whether a run context (with its join handle) is
held, the restart_pending and quit_pending flags, the armed watchdog
deadline, and whether the loop has exited. -/
structure CState where
  runActive : Bool
  restartPending : Bool
  quitPending : Bool
  deadline : Option ℚ
  done : Bool
  deriving Repr, DecidableEq

/-- Initial controller state: a run is active iff configured to start a
test on launch. -/
def ctrlInit (testOnLaunch : Bool) : CState :=
  { runActive := testOnLaunch, restartPending := false, quitPending := false,
    deadline := none, done := false }

/-- Embedding of one iteration of the select loop of run_controller in
src/orchestrator/controller.rs, for the select branch selected by the
stimulus. Returns the successor state and the actions emitted. -/
def ctrlStep (s : CState) (stim : Stim) : CState × List Act :=
  if s.done then (s, [])
  else
    match stim with
    | Stim.cmd _ (some (UiCommand.pause p)) =>
      if s.runActive then (s, [Act.sendPauseCtl p]) else (s, [])
    | Stim.cmd now (some UiCommand.restart) =>
      if s.runActive then
        ({ s with restartPending := true, deadline := some (now + 3000) },
         [Act.sendCancelCtl, Act.infoMsg])
      else
        ({ s with runActive := true, restartPending := false },
         [Act.startRunAct, Act.infoMsg])
    | Stim.cmd now (some UiCommand.quit) =>
      if s.runActive then
        ({ s with quitPending := true, deadline := some (now + 3000) },
         [Act.sendCancelCtl, Act.infoMsg])
      else
        ({ s with quitPending := true, done := true }, [])
    | Stim.cmd _ none =>
      if s.runActive then
        ({ s with quitPending := true }, [Act.sendCancelCtl])
      else
        ({ s with quitPending := true, done := true }, [])
    | Stim.runDone j =>
      if s.runActive then
        let ev :=
          match j with
          | JoinOutcome.okResult => Act.emitRunCompleted
          | JoinOutcome.runErr => Act.emitRunFailed
          | JoinOutcome.joinErr => Act.emitRunFailed
        let s1 := { s with runActive := false, deadline := none }
        if s1.quitPending then ({ s1 with done := true }, [ev])
        else if s1.restartPending then
          ({ s1 with runActive := true, restartPending := false },
           [ev, Act.startRunAct])
        else (s1, [ev])
      else (s, [])
    | Stim.tick now =>
      match s.deadline with
      | some d =>
        if d ≤ now ∧ s.runActive then
          ({ s with deadline := none }, [Act.stillCancelling])
        else (s, [])
      | none => (s, [])

/-- Iterated controller execution: final state and concatenated actions. -/
def ctrlRun (s : CState) : List Stim → CState × List Act
  | [] => (s, [])
  | stim :: rest =>
    let p := ctrlStep s stim
    let q := ctrlRun p.1 rest
    (q.1, p.2 ++ q.2)

/-- Environment validity: the run-completion select branch is a pending
future unless a run context with an untaken join handle exists, so a
runDone stimulus can only occur while the loop is still running and a run
is active. -/
def ValidFrom (s : CState) : List Stim → Prop
  | [] => True
  | Stim.runDone j :: rest =>
    (s.done = false ∧ s.runActive = true) ∧
    ValidFrom (ctrlStep s (Stim.runDone j)).1 rest
  | stim :: rest => ValidFrom (ctrlStep s stim).1 rest

/-- Number of startRunAct actions in an action list. -/
def countStarts (acts : List Act) : Nat :=
  acts.countP (fun a => a == Act.startRunAct)

/-- Number of runDone stimuli in a stimulus list. -/
def countDones (stims : List Stim) : Nat :=
  stims.countP (fun st => match st with
    | Stim.runDone _ => true
    | _ => false)

/-- Number of runs concurrently active after a trace: runs started (the
initial auto-started one included) minus completions observed by the
controller. Subtraction is over the integers so that an excess of
completions could not be hidden by Nat truncation. -/
def activeRuns (initActive : Bool) (stims : List Stim) (acts : List Act) : ℤ :=
  (if initActive then 1 else 0) + (countStarts acts : ℤ) - (countDones stims : ℤ)

/-- Conforming 20-byte STUN binding success response for a transaction id:
type bytes 0x0101, two arbitrary length bytes, the magic cookie, then the
12 transaction-id bytes. -/
def stun_ok_response (a b : Nat) (txid : List Nat) : List Nat :=
  [0x01, 0x01, a, b, 0x21, 0x12, 0xA4, 0x42] ++ txid

/-- Stated from the words of claim C8: the claimed R-factor
clamp(93.2 - min(rtt/2 + 2*jitter, 177.3)/40 - 30*min(loss/100, 1), 0, 100). -/
def claimedRFactor (rtt jit loss : ℚ) : ℚ :=
  rclamp (932 / 10 - min (rtt / 2 + 2 * jit) (1773 / 10) / 40
    - 30 * min (loss / 100) 1) 0 100

/-- Stated from the words of claim C8: the claimed MOS value
clamp(1 + 0.035*r + 7e-6*r*(r-60)*(100-r), 1, 5) over the claimed
R-factor. -/
def claimedMos (rtt jit loss : ℚ) : ℚ :=
  rclamp (1 + 35 / 1000 * claimedRFactor rtt jit loss
    + 7 / 1000000 * claimedRFactor rtt jit loss
      * (claimedRFactor rtt jit loss - 60)
      * (100 - claimedRFactor rtt jit loss)) 1 5

/-! ## Theorems -/

/-- List helper: getD of set at the written index. -/
theorem getD_set_self_of_lt (l : List Nat) (i v d : Nat) (h : i < l.length) :
    (l.set i v).getD i d = v := by
  rw [List.getD_eq_getElem?_getD, List.getElem?_set_self h]
  rfl

/-- List helper: getD past an appended block reads the second list. -/
theorem getD_append_right_of_le (l1 l2 : List Nat) (i d : Nat)
    (h : l1.length ≤ i) :
    (l1 ++ l2).getD i d = l2.getD (i - l1.length) d := by
  rw [List.getD_eq_getElem?_getD, List.getElem?_append_right h,
    List.getD_eq_getElem?_getD]

/-- Rejection of short buffers, shared helper. -/
theorem stun_of_short (buf txid : List Nat) (h : buf.length < 20) :
    is_stun_binding_response buf txid = false := by
  unfold is_stun_binding_response
  rw [if_pos h]

/-- Characterization of the STUN response validator, shared helper. -/
theorem is_stun_binding_response_iff (buf txid : List Nat) :
    is_stun_binding_response buf txid = true ↔
      (20 ≤ buf.length ∧ buf.getD 0 0 = 0x01 ∧ buf.getD 1 0 = 0x01 ∧
       buf.getD 4 0 = 0x21 ∧ buf.getD 5 0 = 0x12 ∧ buf.getD 6 0 = 0xA4 ∧
       buf.getD 7 0 = 0x42 ∧ (buf.drop 8).take 12 = txid) := by
  simp only [is_stun_binding_response]
  split_ifs with h1 h2 h3
  · simp only [false_iff]
    rintro ⟨h, -⟩
    omega
  · simp only [decide_eq_true_eq]
    constructor
    · intro ht
      exact ⟨by omega, h2.1, h2.2, h3.1, h3.2.1, h3.2.2.1, h3.2.2.2, ht⟩
    · intro h
      exact h.2.2.2.2.2.2.2
  · simp only [false_iff]
    rintro ⟨-, -, -, h4, h5, h6, h7, -⟩
    exact h3 ⟨h4, h5, h6, h7⟩
  · simp only [false_iff]
    rintro ⟨-, ha, hb, -⟩
    exact h2 ⟨ha, hb⟩

/-- Sorting model facts: sortAsc produces a sorted permutation of its
input, and any sorted permutation of the input equals it. -/
theorem sortAsc_eq_of_sorted (samples sorted2 : List ℚ)
    (hp : samples.Perm sorted2) (hs : sorted2.Sorted (fun a b => a ≤ b)) :
    sortAsc samples = sorted2 :=
  @List.eq_of_perm_of_sorted ℚ (fun a b => a ≤ b) inferInstance _ _
    ((List.perm_insertionSort _ samples).trans hp)
    (List.sorted_insertionSort _ samples) hs

/-- C4: the batch metrics function returns no result on fewer than 2
samples; on n ≥ 2 samples it returns the arithmetic mean over the unsorted
input together with median = sorted[n/2], p25 = sorted[n/4],
p75 = sorted[3*n/4] (truncating Nat division) on the ascending-sorted copy
(characterized here through an arbitrary sorted permutation of the input);
in particular [1,2,3,4] yields mean 5/2, median 3, p25 2, p75 4, and the
empty and singleton inputs yield no result. The twin
compute_throughput_metrics is the same computation on the second
components of its points. -/
theorem C4_compute_metrics (samples sorted2 : List ℚ)
    (points : List (ℚ × ℚ))
    (hp : samples.Perm sorted2) (hs : sorted2.Sorted (fun a b => a ≤ b)) :
    (compute_latency_metrics samples = none ↔ samples.length < 2) ∧
    (2 ≤ samples.length →
      compute_latency_metrics samples =
        some (samples.sum / (samples.length : ℚ),
          sorted2.getD (samples.length / 2) 0,
          sorted2.getD (samples.length / 4) 0,
          sorted2.getD (3 * samples.length / 4) 0)) ∧
    compute_latency_metrics [1, 2, 3, 4] = some (5 / 2, 3, 2, 4) ∧
    compute_latency_metrics [] = none ∧
    (∀ x : ℚ, compute_latency_metrics [x] = none) ∧
    compute_throughput_metrics points =
      compute_latency_metrics (points.map Prod.snd) := by
  refine ⟨?_, ?_,
    by norm_num [compute_latency_metrics, sortAsc, List.insertionSort,
      List.orderedInsert],
    by norm_num [compute_latency_metrics],
    fun x => by simp [compute_latency_metrics], ?_⟩
  · constructor
    · intro h
      by_contra hlt
      simp [compute_latency_metrics, hlt] at h
    · intro h
      simp [compute_latency_metrics, h]
  · intro h
    have hlen : sortAsc samples = sorted2 := sortAsc_eq_of_sorted samples sorted2 hp hs
    have hl : sorted2.length = samples.length := (hp.length_eq).symm
    simp only [compute_latency_metrics, hlen]
    rw [if_neg (by omega)]
    simp [hl]
  · simp only [compute_throughput_metrics, compute_latency_metrics,
      List.length_map]

/-- C4 witness: the theorem instantiated at the concrete input [1,2,3,4]
with itself as the sorted copy. -/
theorem C4_compute_metrics_witness :
    compute_latency_metrics [1, 2, 3, 4] = some (5 / 2, 3, 2, 4) :=
  (C4_compute_metrics [1, 2, 3, 4] [1, 2, 3, 4] []
    (List.Perm.refl _) (by norm_num [List.Sorted])).2.2.1

/-- Floor invariant for the iterated backoff, shared helper for C5. -/
theorem download_backoff_run_floor (statuses : List RespStatus) :
    ∀ bpr : Nat, MIN_DOWNLOAD_BYTES_PER_REQ ≤ bpr →
      MIN_DOWNLOAD_BYTES_PER_REQ ≤ download_backoff_run bpr statuses := by
  induction statuses with
  | nil => intro bpr h; simpa [download_backoff_run] using h
  | cons s rest ih =>
    intro bpr h
    have hstep : MIN_DOWNLOAD_BYTES_PER_REQ ≤ (download_backoff_step bpr s).1 := by
      cases s with
      | netErr => simpa [download_backoff_step] using h
      | http c =>
        simp only [download_backoff_step]
        split_ifs <;> simp_all [MIN_DOWNLOAD_BYTES_PER_REQ]
    simpa [download_backoff_run] using ih _ hstep

/-- C5: a download worker's local bytes_per_req decreases only on an HTTP
429 response (on which it becomes the halved value floored at 100,000
whenever that is an actual decrease, and is otherwise left unchanged),
never decreases on a network error or on any non-429 status, never goes
below the 100,000-byte floor over any sequence of responses, and the
informational event is emitted exactly when the size actually decreases. -/
theorem C5_download_backoff (bpr : Nat) (s : RespStatus)
    (statuses : List RespStatus) :
    ((download_backoff_step bpr s).1 < bpr → s = RespStatus.http 429) ∧
    ((download_backoff_step bpr (RespStatus.http 429)).1 =
      if max (bpr / 2) MIN_DOWNLOAD_BYTES_PER_REQ < bpr then
        max (bpr / 2) MIN_DOWNLOAD_BYTES_PER_REQ
      else bpr) ∧
    (s ≠ RespStatus.http 429 → (download_backoff_step bpr s).1 = bpr) ∧
    (MIN_DOWNLOAD_BYTES_PER_REQ ≤ bpr →
      MIN_DOWNLOAD_BYTES_PER_REQ ≤ (download_backoff_step bpr s).1) ∧
    ((download_backoff_step bpr s).2 = true ↔
      (download_backoff_step bpr s).1 < bpr) ∧
    (MIN_DOWNLOAD_BYTES_PER_REQ ≤ bpr →
      MIN_DOWNLOAD_BYTES_PER_REQ ≤ download_backoff_run bpr statuses) := by
  refine ⟨?_, ?_, ?_, ?_, ?_, fun h => download_backoff_run_floor statuses bpr h⟩
  · intro hlt
    cases s with
    | netErr => simp [download_backoff_step] at hlt
    | http c =>
      simp only [download_backoff_step] at hlt
      by_contra hne
      have hc : c ≠ 429 := by intro h; exact hne (by rw [h])
      split_ifs at hlt <;> omega
  · simp only [download_backoff_step, isSuccessCode]
    norm_num
    split_ifs <;> rfl
  · intro hne
    cases s with
    | netErr => rfl
    | http c =>
      have hc : c ≠ 429 := by intro h; exact hne (by rw [h])
      simp only [download_backoff_step]
      split_ifs <;> simp_all
  · intro h
    cases s with
    | netErr => simpa [download_backoff_step] using h
    | http c =>
      simp only [download_backoff_step]
      split_ifs <;> simp_all [MIN_DOWNLOAD_BYTES_PER_REQ]
  · cases s with
    | netErr => simp [download_backoff_step]
    | http c =>
      simp only [download_backoff_step]
      split_ifs <;> simp_all

/-- C5 witness: the theorem instantiated at bytes_per_req = 10,000,000 and
a single 429 response, which halves the size to 5,000,000 while keeping it
at or above the floor. -/
theorem C5_download_backoff_witness :
    MIN_DOWNLOAD_BYTES_PER_REQ ≤ 10000000 ∧
    MIN_DOWNLOAD_BYTES_PER_REQ ≤
      download_backoff_run 10000000 [RespStatus.http 429] :=
  ⟨by norm_num [MIN_DOWNLOAD_BYTES_PER_REQ],
   (C5_download_backoff 10000000 RespStatus.netErr
      [RespStatus.http 429]).2.2.2.2.2
    (by norm_num [MIN_DOWNLOAD_BYTES_PER_REQ])⟩

/-- C6: the STUN response validator accepts a buffer for a sent
transaction id iff the buffer is at least 20 bytes with type bytes 0x0101,
the magic cookie 0x2112A442 at offset 4, and bytes [8:20] equal to the
sent id; consequently a conforming 20-byte response is accepted, while
changing any single one of the type, cookie, or transaction-id bytes, or
truncating below 20 bytes, causes rejection. -/
theorem C6_stun_validator (buf txid : List Nat) (a b : Nat)
    (h12 : txid.length = 12) :
    (is_stun_binding_response buf txid = true ↔
      (20 ≤ buf.length ∧ buf.getD 0 0 = 0x01 ∧ buf.getD 1 0 = 0x01 ∧
       buf.getD 4 0 = 0x21 ∧ buf.getD 5 0 = 0x12 ∧ buf.getD 6 0 = 0xA4 ∧
       buf.getD 7 0 = 0x42 ∧ (buf.drop 8).take 12 = txid)) ∧
    is_stun_binding_response (stun_ok_response a b txid) txid = true ∧
    (∀ i v, (i ∈ ([0, 1, 4, 5, 6, 7] : List Nat) ∨ (8 ≤ i ∧ i < 20)) →
      v ≠ (stun_ok_response a b txid).getD i 0 →
      is_stun_binding_response ((stun_ok_response a b txid).set i v) txid
        = false) ∧
    (∀ n, n < 20 →
      is_stun_binding_response ((stun_ok_response a b txid).take n) txid
        = false) := by
  have hlen : (stun_ok_response a b txid).length = 20 := by
    simp [stun_ok_response, h12]
  have hdrop : (stun_ok_response a b txid).drop 8 = txid := by
    simp only [stun_ok_response]
    exact List.drop_left' rfl
  refine ⟨is_stun_binding_response_iff buf txid, ?_, ?_, ?_⟩
  · rw [is_stun_binding_response_iff]
    refine ⟨by omega, rfl, rfl, rfl, rfl, rfl, rfl, ?_⟩
    rw [hdrop]
    exact List.take_of_length_le (by omega)
  · intro i v hi hv
    rw [Bool.eq_false_iff]
    intro htrue
    have hR := (is_stun_binding_response_iff _ _).mp htrue
    rcases hi with hmem | hrange
    · have hv2 : v ≠ (stun_ok_response a b txid).getD i 0 := hv
      fin_cases hmem
      · exact hv2 (by simpa [stun_ok_response] using hR.2.1)
      · exact hv2 (by simpa [stun_ok_response] using hR.2.2.1)
      · exact hv2 (by simpa [stun_ok_response] using hR.2.2.2.1)
      · exact hv2 (by simpa [stun_ok_response] using hR.2.2.2.2.1)
      · exact hv2 (by simpa [stun_ok_response] using hR.2.2.2.2.2.1)
      · exact hv2 (by simpa [stun_ok_response] using hR.2.2.2.2.2.2.1)
    · obtain ⟨h8, h20⟩ := hrange
      have hpre : ([0x01, 0x01, a, b, 0x21, 0x12, 0xA4, 0x42] : List Nat).length ≤ i := by
        simp
        omega
      have hset : (stun_ok_response a b txid).set i v =
          [0x01, 0x01, a, b, 0x21, 0x12, 0xA4, 0x42] ++ txid.set (i - 8) v := by
        simp only [stun_ok_response]
        rw [List.set_append_right _ _ hpre]
        rfl
      have htake : ((((stun_ok_response a b txid).set i v).drop 8).take 12)
          = txid.set (i - 8) v := by
        rw [hset]
        rw [List.drop_left'
          (show ([0x01, 0x01, a, b, 0x21, 0x12, 0xA4, 0x42] : List Nat).length = 8
            from rfl)]
        exact List.take_of_length_le (by simp [h12])
      have heq : txid.set (i - 8) v = txid := by
        rw [← htake]
        exact hR.2.2.2.2.2.2.2
      have hvv : v = txid.getD (i - 8) 0 := by
        rw [← getD_set_self_of_lt txid (i - 8) v 0 (by omega), heq]
      apply hv
      rw [hvv]
      simp only [stun_ok_response]
      rw [getD_append_right_of_le _ _ _ _ (by simp; omega)]
      congr 1
  · intro n hn
    apply stun_of_short
    rw [List.length_take, hlen]
    omega

/-- C6 witness: the theorem instantiated at a concrete 12-byte transaction
id, accepting the conforming response. -/
theorem C6_stun_validator_witness :
    is_stun_binding_response
      (stun_ok_response 9 9 [1, 2, 3, 4, 5, 6, 7, 8, 9, 10, 11, 12])
      [1, 2, 3, 4, 5, 6, 7, 8, 9, 10, 11, 12] = true :=
  (C6_stun_validator [] [1, 2, 3, 4, 5, 6, 7, 8, 9, 10, 11, 12] 9 9
    (by decide)).2.1

/-- C8: the MOS scorer returns no score exactly when one of its three
inputs is NaN or negative; on all other inputs it returns
clamp(1 + 0.035*r + 7e-6*r*(r-60)*(100-r), 1, 5) for
r = clamp(93.2 - min(rtt/2 + 2*jitter, 177.3)/40 - 30*min(loss/100, 1),
0, 100). -/
theorem C8_mos (x y z : F64) :
    (calculate_mos x y z = none ↔
      ((x = F64.nan ∨ ∃ q, x = F64.val q ∧ q < 0) ∨
       (y = F64.nan ∨ ∃ q, y = F64.val q ∧ q < 0) ∨
       (z = F64.nan ∨ ∃ q, z = F64.val q ∧ q < 0))) ∧
    (∀ r j l : ℚ, 0 ≤ r → 0 ≤ j → 0 ≤ l →
      calculate_mos (F64.val r) (F64.val j) (F64.val l) =
        some (claimedMos r j l)) := by
  constructor
  · rcases x with _ | rv
    · simp [calculate_mos]
    · rcases y with _ | jv
      · simp [calculate_mos]
      · rcases z with _ | lv
        · simp [calculate_mos]
        · simp only [calculate_mos]
          split_ifs with h
          · refine iff_of_true rfl ?_
            rcases h with h | h | h
            · exact Or.inl (Or.inr ⟨rv, rfl, h⟩)
            · exact Or.inr (Or.inl (Or.inr ⟨jv, rfl, h⟩))
            · exact Or.inr (Or.inr (Or.inr ⟨lv, rfl, h⟩))
          · push_neg at h
            refine iff_of_false (by simp) ?_
            rintro ((hnan | ⟨q, hq, hlt⟩) | (hnan | ⟨q, hq, hlt⟩) |
              (hnan | ⟨q, hq, hlt⟩))
            · exact hnan
            · obtain rfl : rv = q := by injection hq
              linarith [h.1]
            · exact hnan
            · obtain rfl : jv = q := by injection hq
              linarith [h.2.1]
            · exact hnan
            · obtain rfl : lv = q := by injection hq
              linarith [h.2.2]
  · intro r j l hr hj hl
    have hnot : ¬(r < 0 ∨ j < 0 ∨ l < 0) := by
      push_neg
      exact ⟨by linarith, by linarith, by linarith⟩
    have h1 : 0 ≤ rclamp (932 / 10 - min (r / 2 + 2 * j) (1773 / 10) / 40
        - 30 * min (l / 100) 1) 0 100 :=
      le_min (le_max_right _ _) (by norm_num)
    have h2 : rclamp (932 / 10 - min (r / 2 + 2 * j) (1773 / 10) / 40
        - 30 * min (l / 100) 1) 0 100 ≤ 100 := min_le_right _ _
    simp only [calculate_mos, if_neg hnot, claimedMos, claimedRFactor]
    rw [if_neg (not_lt.mpr h1), if_neg (not_lt.mpr h2)]

/-- C8 witness: the theorem applied at rtt = jitter = loss = 0, where the
R-factor is 93.2 and the score is the exact formula value. -/
theorem C8_mos_witness :
    calculate_mos (F64.val 0) (F64.val 0) (F64.val 0) =
      some (claimedMos 0 0 0) :=
  (C8_mos F64.nan F64.nan F64.nan).2 0 0 0 le_rfl le_rfl le_rfl

/-- Unfolding of the steady-window estimator in terms of the actual window
index/span/delta, shared helper. -/
theorem estimate_steady_window_eq (samples : List (ℚ × Nat)) (totalMs : ℚ) :
    estimate_steady_window samples totalMs =
      if samples.length < 2 then none
      else if Int.floor (window_span samples totalMs) < 200 then none
      else some (window_delta samples totalMs, window_span samples totalMs) :=
  rfl

/-- C2 counterexample: with total duration 10s the discard threshold is
2s; for the two-sample series at 0ms and 900ms every sample lies before
the threshold, so the span remaining after discarding those samples is 0
(under 200ms) and the claim requires no window, yet the estimator falls
back to start index 0 and reports the window (500 bytes, 900ms). -/
theorem C2_steady_window_counterexample :
    claimedNoWindow [((0 : ℚ), 0), (900, 500)] 10000 = true ∧
    estimate_steady_window [((0 : ℚ), 0), (900, 500)] 10000 ≠ none := by
  constructor
  · norm_num [claimedNoWindow, List.filter]
  · rw [estimate_steady_window_eq]
    norm_num [window_span, window_delta, window_start_idx, List.findIdx?]
    simp

/-- C2 amended: the estimator reports no window exactly when there are
fewer than 2 samples or the span of the window it actually uses is under
200ms (as_millis truncation), where the window runs from the first sample
at or after first-timestamp + max(20% of duration, 1s) — or from the very
first sample when no sample reaches the threshold — to the last sample;
otherwise it returns the byte delta and time span of that window; and on
no window the caller falls back to the raw total bytes over the full
elapsed duration. -/
theorem C2_steady_window_amended (samples : List (ℚ × Nat))
    (totalMs durMs : ℚ) (bytes_total : Nat) :
    (estimate_steady_window samples totalMs = none ↔
      samples.length < 2 ∨ Int.floor (window_span samples totalMs) < 200) ∧
    (2 ≤ samples.length →
      ¬Int.floor (window_span samples totalMs) < 200 →
      estimate_steady_window samples totalMs =
        some (window_delta samples totalMs, window_span samples totalMs)) ∧
    (estimate_steady_window samples durMs = none →
      steady_or_fallback samples durMs bytes_total = (bytes_total, durMs)) := by
  refine ⟨?_, ?_, ?_⟩
  · rw [estimate_steady_window_eq]
    split_ifs with h1 h2 <;> simp_all
  · intro hlen hspan
    rw [estimate_steady_window_eq, if_neg (by omega), if_neg hspan]
  · intro hnone
    simp [steady_or_fallback, hnone]

/-- C2 witness: the amended theorem applied to the two-sample series at
0ms and 250ms with a 1s total duration: the discard threshold is 1s, no
sample reaches it, and the estimator uses the full 250ms window. -/
theorem C2_steady_window_witness :
    estimate_steady_window [((0 : ℚ), 0), (250, 400)] 1000 =
      some (window_delta [((0 : ℚ), 0), (250, 400)] 1000,
        window_span [((0 : ℚ), 0), (250, 400)] 1000) :=
  (C2_steady_window_amended [((0 : ℚ), 0), (250, 400)] 1000 1000 0).2.1
    (by norm_num)
    (by norm_num [window_span, window_start_idx, List.findIdx?])

/-- Value of the batch metrics function on at least 2 samples, shared
helper. -/
theorem compute_latency_metrics_spec (samples : List ℚ)
    (h : 2 ≤ samples.length) :
    compute_latency_metrics samples =
      some (samples.sum / (samples.length : ℚ),
        (sortAsc samples).getD (samples.length / 2) 0,
        (sortAsc samples).getD (samples.length / 4) 0,
        (sortAsc samples).getD (3 * samples.length / 4) 0) := by
  simp only [compute_latency_metrics]
  rw [if_neg (by omega)]
  simp [sortAsc]

/-- C7: the final ThroughputSummary's headline mbps field is the mean of
the per-tick mbps series (whenever that series has at least 2 points),
while the bytes and duration_ms fields are taken from the steady window
when the estimator reports one; and when the tick series has fewer than 2
points all four of mean/median/p25/p75 mbps equal the single aggregate
value bytes * 8 / duration-seconds / 1e6 (provided the duration is at
least the 1e-9-second guard of the source). -/
theorem C7_final_summary (samples : List (ℚ × Nat)) (durMs w : ℚ)
    (bytes_total b : Nat) (mbps_samples : List ℚ) :
    (2 ≤ mbps_samples.length →
      (throughput_summary b w mbps_samples).mbps =
        mbps_samples.sum / (mbps_samples.length : ℚ)) ∧
    (estimate_steady_window samples durMs = some (b, w) →
      (phase_final_summary samples durMs bytes_total mbps_samples).bytes = b ∧
      (phase_final_summary samples durMs bytes_total mbps_samples).duration_ms
        = (Int.floor w).toNat) ∧
    (mbps_samples.length < 2 → 1 / 1000000000 ≤ w / 1000 →
      (throughput_summary b w mbps_samples).mbps
          = (b : ℚ) * 8 / (w / 1000) / 1000000 ∧
        (throughput_summary b w mbps_samples).mean_mbps
          = some ((b : ℚ) * 8 / (w / 1000) / 1000000) ∧
        (throughput_summary b w mbps_samples).median_mbps
          = some ((b : ℚ) * 8 / (w / 1000) / 1000000) ∧
        (throughput_summary b w mbps_samples).p25_mbps
          = some ((b : ℚ) * 8 / (w / 1000) / 1000000) ∧
        (throughput_summary b w mbps_samples).p75_mbps
          = some ((b : ℚ) * 8 / (w / 1000) / 1000000)) := by
  refine ⟨?_, ?_, ?_⟩
  · intro h
    simp [throughput_summary, compute_latency_metrics_spec mbps_samples h]
  · intro hsome
    constructor
    · simp [phase_final_summary, steady_or_fallback, hsome, throughput_summary]
    · simp [phase_final_summary, steady_or_fallback, hsome, throughput_summary]
  · intro hlen hw
    have hnone : compute_latency_metrics mbps_samples = none := by
      simp [compute_latency_metrics, hlen]
    have hsecs : max (w / 1000) (1 / 1000000000 : ℚ) = w / 1000 :=
      max_eq_left hw
    refine ⟨?_, ?_, ?_, ?_, ?_⟩ <;>
      simp only [throughput_summary, hnone, Option.getD_none, hsecs,
        Option.some.injEq] <;>
      ring

/-- C7 witness: the theorem applied at a concrete steady window of 500
bytes over 1000ms with an empty tick series: all four statistics equal
500*8/1/1e6 = 1/250 Mbps. -/
theorem C7_final_summary_witness :
    (throughput_summary 500 1000 []).mbps = (500 : ℚ) * 8 / (1000 / 1000) / 1000000 :=
  ((C7_final_summary [] 0 1000 0 500 []).2.2 (by norm_num) (by norm_num)).1

/-- Lookup hits the binding just inserted (HashMap insert overwrites),
shared helper. -/
theorem lookupSeq_insert (m : List (List Nat × Nat)) (k : List Nat) (v : Nat) :
    lookupSeq ((k, v) :: m) k = some v := by
  unfold lookupSeq
  rw [List.find?_cons_of_pos]
  · rfl
  · simp

/-- Facts about one UDP probe attempt, shared helper: given that the
current attempt number has reached next_expected_seq, the out-of-order
counter is unchanged, next_expected_seq stays at most seq + 1, exactly one
packet is counted as sent, and at most one as received. -/
theorem udpStep_facts (st : UdpState) (seq : Nat) (it : UdpIter)
    (h : st.nextExpectedSeq ≤ seq) :
    (udpStep st seq it).outOfOrder = st.outOfOrder ∧
    (udpStep st seq it).nextExpectedSeq ≤ seq + 1 ∧
    (udpStep st seq it).sent = st.sent + 1 ∧
    (udpStep st seq it).received ≤ st.received + 1 ∧
    st.received ≤ (udpStep st seq it).received := by
  unfold udpStep
  cases hresp : it.resp with
  | none =>
    simp
    omega
  | some buf =>
    by_cases hok : is_stun_binding_response buf it.txid
    · simp only [hok, if_true, lookupSeq_insert]
      rw [if_neg (by omega)]
      simp
    · simp [hok]
      omega

/-- Loop invariant for the UDP probe, shared helper: starting from any
state whose next_expected_seq has not passed the current attempt number
and whose received count is at most its sent count, the loop never
increments the out-of-order counter and keeps received at most sent. -/
theorem udpLoop_facts (iters : List UdpIter) :
    ∀ seq st, st.nextExpectedSeq ≤ seq → st.received ≤ st.sent →
      (udpLoop iters seq st).outOfOrder = st.outOfOrder ∧
      (udpLoop iters seq st).received ≤ (udpLoop iters seq st).sent := by
  induction iters with
  | nil =>
    intro seq st _ hrs
    exact ⟨rfl, hrs⟩
  | cons it rest ih =>
    intro seq st h hrs
    obtain ⟨hooo, hnext, hsent, hrecv, hmono⟩ := udpStep_facts st seq it h
    have hrs2 : (udpStep st seq it).received ≤ (udpStep st seq it).sent := by
      omega
    have hrec := ih (seq + 1) (udpStep st seq it) hnext hrs2
    refine ⟨?_, hrec.2⟩
    calc (udpLoop (it :: rest) seq st).outOfOrder
        = (udpLoop rest (seq + 1) (udpStep st seq it)).outOfOrder := rfl
      _ = (udpStep st seq it).outOfOrder := hrec.1
      _ = st.outOfOrder := hooo

/-- C3: in every execution of the UDP loss-probe loop the out-of-order
counter remains zero, and hence the reported out-of-order percentage is
always zero: a response is accepted only against the transaction id of
the attempt currently awaiting it, whose 1-based sequence number never
falls below the next_expected counter. -/
theorem C3_udp_out_of_order (iters : List UdpIter) :
    (run_udp_like_loss_probe iters).outOfOrder = 0 ∧
    out_of_order_pct (run_udp_like_loss_probe iters) = 0 := by
  have h := udpLoop_facts iters 1 udpInit (by simp [udpInit]) (by simp [udpInit])
  have hooo : (run_udp_like_loss_probe iters).outOfOrder = 0 := by
    simpa [run_udp_like_loss_probe, udpInit] using h.1
  refine ⟨hooo, ?_⟩
  unfold out_of_order_pct
  rw [hooo]
  split_ifs <;> norm_num

/-- Sample counting distributes over appended event lists, shared helper. -/
theorem countSamples_append (a b : List LatEvent) :
    countSamples (a ++ b) = countSamples a + countSamples b :=
  List.countP_append _ _ _

/-- Facts about one latency probe attempt, shared helper: each attempt
adds exactly one to the sent counter, emits exactly one LatencySample
event, and adds at most one to the received counter. -/
theorem latStep_facts (isIdle : Bool) (it : ProbeIter) (st : LatState) :
    countSamples (latStep isIdle it st).events = countSamples st.events + 1 ∧
    (latStep isIdle it st).sent = st.sent + 1 ∧
    st.received ≤ (latStep isIdle it st).received ∧
    (latStep isIdle it st).received ≤ st.received + 1 := by
  unfold latStep
  cases hp : it.probe with
  | some pr =>
    obtain ⟨ms, metaAvail⟩ := pr
    by_cases hm : ¬st.metaSent = true ∧ isIdle = true ∧ metaAvail = true
    · simp [hm, countSamples_append, countSamples]
    · simp [hm, countSamples_append, countSamples]
      intro a _ _ _ ha
      subst ha
      rfl
  | none => simp [countSamples_append, countSamples]

/-- One-sample-per-attempt invariant of the latency loop, shared helper. -/
theorem latLoop_count (isIdle : Bool) (iters : List ProbeIter) :
    ∀ st : LatState, countSamples st.events = st.sent →
      countSamples (latLoop isIdle iters st).events =
        (latLoop isIdle iters st).sent := by
  induction iters with
  | nil => intro st h; exact h
  | cons it rest ih =>
    intro st h
    obtain ⟨he, hs, -, -⟩ := latStep_facts isIdle it st
    by_cases ht : it.timeUp = true
    · simpa [latLoop, ht] using h
    · by_cases hc : it.cancelSeen = true
      · simp only [latLoop]
        rw [if_neg (by simp_all), if_pos (by simp_all)]
        exact h
      · simp only [latLoop]
        rw [if_neg (by simp_all), if_neg (by simp_all)]
        exact ih _ (by omega)

/-- Received-at-most-sent invariant of the latency loop, shared helper. -/
theorem latLoop_recv_le_sent (isIdle : Bool) (iters : List ProbeIter) :
    ∀ st : LatState, st.received ≤ st.sent →
      (latLoop isIdle iters st).received ≤ (latLoop isIdle iters st).sent := by
  induction iters with
  | nil => intro st h; exact h
  | cons it rest ih =>
    intro st h
    obtain ⟨-, hs, -, hr⟩ := latStep_facts isIdle it st
    by_cases ht : it.timeUp = true
    · simpa [latLoop, ht] using h
    · by_cases hc : it.cancelSeen = true
      · simp only [latLoop]
        rw [if_neg (by simp_all), if_pos (by simp_all)]
        exact h
      · simp only [latLoop]
        rw [if_neg (by simp_all), if_neg (by simp_all)]
        exact ih _ (by omega)

/-- The loop run on a list whose head iteration observes time-up or
cancellation returns its state unchanged, shared helper. -/
theorem latLoop_stop (isIdle : Bool) (it : ProbeIter) (post : List ProbeIter)
    (st : LatState) (h : it.timeUp = true ∨ it.cancelSeen = true) :
    latLoop isIdle (it :: post) st = st := by
  by_cases ht : it.timeUp = true
  · simp [latLoop, ht]
  · rcases h with h | h
    · exact absurd h ht
    · simp [latLoop, ht, h]

/-- The loop runs through a block of iterations that neither time out nor
observe cancellation, shared helper. -/
theorem latLoop_append (isIdle : Bool) (pre rest : List ProbeIter) :
    ∀ st : LatState, (∀ j ∈ pre, j.timeUp = false ∧ j.cancelSeen = false) →
      latLoop isIdle (pre ++ rest) st =
        latLoop isIdle rest (latLoop isIdle pre st) := by
  induction pre with
  | nil => intro st _; rfl
  | cons j pre2 ih =>
    intro st hall
    have hj := hall j (by simp)
    have htail : ∀ k ∈ pre2, k.timeUp = false ∧ k.cancelSeen = false :=
      fun k hk => hall k (by simp [hk])
    simp only [List.cons_append, latLoop, hj.1, hj.2]
    simp only [Bool.false_eq_true, if_false]
    exact ih _ htail

/-- C9: the latency prober emits exactly one LatencySample event per probe
attempt, and once the loop observes the cancelled flag it stops
immediately: the run is identical to the run over the iterations before
the cancellation, so no probe is issued and no further LatencySample event
is emitted from that point on. -/
theorem C9_latency_prober (isIdle : Bool)
    (iters pre post : List ProbeIter) (it : ProbeIter) :
    countSamples (run_latency_probes isIdle iters).events =
      (run_latency_probes isIdle iters).sent ∧
    (iters = pre ++ it :: post →
      (∀ j ∈ pre, j.timeUp = false ∧ j.cancelSeen = false) →
      it.cancelSeen = true →
      run_latency_probes isIdle iters = run_latency_probes isIdle pre) := by
  constructor
  · exact latLoop_count isIdle iters latInit (by simp [latInit, countSamples])
  · intro heq hpre hcancel
    subst heq
    unfold run_latency_probes
    rw [latLoop_append isIdle pre (it :: post) latInit hpre]
    exact latLoop_stop isIdle it post _ (Or.inr hcancel)

/-- C9 witness: the theorem applied to a two-iteration schedule whose
second iteration observes cancellation after a first successful probe: the
run equals the one-iteration run. -/
theorem C9_latency_prober_witness :
    run_latency_probes true
      [⟨false, false, some (5, false)⟩, ⟨false, true, none⟩] =
      run_latency_probes true [⟨false, false, some (5, false)⟩] :=
  (C9_latency_prober true
      [⟨false, false, some (5, false)⟩, ⟨false, true, none⟩]
      [⟨false, false, some (5, false)⟩] [] ⟨false, true, none⟩).2
    rfl (by simp) rfl

/-- Field values of the summary builder, shared helper. -/
theorem latency_summary_fields (sent received : Nat) (samples : List ℚ)
    (jitter : ℚ) :
    (latency_summary_from_samples sent received samples jitter).sent = sent ∧
    (latency_summary_from_samples sent received samples jitter).received
      = received ∧
    (latency_summary_from_samples sent received samples jitter).loss =
      (if 0 < sent then ((sent : ℚ) - (received : ℚ)) / (sent : ℚ) else 0) := by
  unfold latency_summary_from_samples
  cases h : compute_latency_metrics samples with
  | none => simp
  | some m =>
    obtain ⟨mean, med, p25, p75⟩ := m
    simp

/-- C10: every LatencySummary produced by the latency prober or by the
UDP probe has received at most sent, with loss = (sent - received)/sent
when sent > 0 and 0 otherwise; and the failed variant has loss = 1 with
sent = received = 0 and every RTT field (min, mean, median, p25, p75, max
and jitter) absent. -/
theorem C10_summary_invariants (isIdle : Bool) (iters : List ProbeIter)
    (uiters : List UdpIter) (jl ju : ℚ) :
    ((run_latency_probes_summary isIdle iters jl).received ≤
      (run_latency_probes_summary isIdle iters jl).sent) ∧
    ((run_latency_probes_summary isIdle iters jl).loss =
      if 0 < (run_latency_probes_summary isIdle iters jl).sent then
        (((run_latency_probes_summary isIdle iters jl).sent : ℚ)
            - ((run_latency_probes_summary isIdle iters jl).received : ℚ))
          / ((run_latency_probes_summary isIdle iters jl).sent : ℚ)
      else 0) ∧
    ((run_udp_probe_summary uiters ju).received ≤
      (run_udp_probe_summary uiters ju).sent) ∧
    ((run_udp_probe_summary uiters ju).loss =
      if 0 < (run_udp_probe_summary uiters ju).sent then
        (((run_udp_probe_summary uiters ju).sent : ℚ)
            - ((run_udp_probe_summary uiters ju).received : ℚ))
          / ((run_udp_probe_summary uiters ju).sent : ℚ)
      else 0) ∧
    (LatencySummary.failed.loss = 1 ∧ LatencySummary.failed.sent = 0 ∧
     LatencySummary.failed.received = 0 ∧
     LatencySummary.failed.min_ms = none ∧
     LatencySummary.failed.mean_ms = none ∧
     LatencySummary.failed.median_ms = none ∧
     LatencySummary.failed.p25_ms = none ∧
     LatencySummary.failed.p75_ms = none ∧
     LatencySummary.failed.max_ms = none ∧
     LatencySummary.failed.jitter_ms = none) := by
  obtain ⟨hs1, hr1, hl1⟩ := latency_summary_fields
    (run_latency_probes isIdle iters).sent
    (run_latency_probes isIdle iters).received
    (run_latency_probes isIdle iters).samples jl
  obtain ⟨hs2, hr2, hl2⟩ := latency_summary_fields
    (run_udp_like_loss_probe uiters).sent
    (run_udp_like_loss_probe uiters).received
    (run_udp_like_loss_probe uiters).samples ju
  have hlat : (run_latency_probes isIdle iters).received ≤
      (run_latency_probes isIdle iters).sent :=
    latLoop_recv_le_sent isIdle iters latInit (by simp [latInit])
  have hudp : (run_udp_like_loss_probe uiters).received ≤
      (run_udp_like_loss_probe uiters).sent :=
    (udpLoop_facts uiters 1 udpInit (by simp [udpInit]) (by simp [udpInit])).2
  refine ⟨?_, ?_, ?_, ?_, ?_⟩
  · unfold run_latency_probes_summary
    rw [hs1, hr1]
    exact hlat
  · unfold run_latency_probes_summary
    rw [hs1, hr1, hl1]
  · unfold run_udp_probe_summary
    rw [hs2, hr2]
    exact hudp
  · unfold run_udp_probe_summary
    rw [hs2, hr2, hl2]
  · exact ⟨rfl, rfl, rfl, rfl, rfl, rfl, rfl, rfl, rfl, rfl⟩

/-- Start/completion bookkeeping of one controller step, shared helper:
whether a run is active afterwards equals whether one was active before,
plus runs started by this step, minus completions observed by this step. -/
theorem ctrlStep_count (s : CState) (stim : Stim)
    (hv : ∀ j, stim = Stim.runDone j → s.done = false ∧ s.runActive = true) :
    (if (ctrlStep s stim).1.runActive then (1 : ℤ) else 0) =
      (if s.runActive then (1 : ℤ) else 0)
        + (countStarts (ctrlStep s stim).2 : ℤ)
        - (countDones [stim] : ℤ) := by
  by_cases hd : s.done = true
  · cases stim with
    | cmd now c => simp [ctrlStep, hd, countStarts, countDones]
    | runDone j => exact absurd (hv j rfl).1 (by simp [hd])
    | tick now => simp [ctrlStep, hd, countStarts, countDones]
  · have hd2 : s.done = false := by simp_all
    cases stim with
    | cmd now c =>
      cases c with
      | none =>
        simp only [ctrlStep, hd2, Bool.false_eq_true, if_false]
        split_ifs <;> simp_all [countStarts, countDones]
      | some u =>
        cases u with
        | pause p =>
          simp only [ctrlStep, hd2, Bool.false_eq_true, if_false]
          split_ifs <;> simp_all [countStarts, countDones]
        | restart =>
          simp only [ctrlStep, hd2, Bool.false_eq_true, if_false]
          split_ifs <;> simp_all [countStarts, countDones]
        | quit =>
          simp only [ctrlStep, hd2, Bool.false_eq_true, if_false]
          split_ifs <;> simp_all [countStarts, countDones]
    | runDone j =>
      have ha := (hv j rfl).2
      simp only [ctrlStep, hd2, ha]
      cases j <;>
        (simp only []
         split_ifs <;> simp_all [countStarts, countDones])
    | tick now =>
      simp only [ctrlStep, hd2, Bool.false_eq_true, if_false]
      cases hdl : s.deadline with
      | none => simp [countStarts, countDones]
      | some d =>
        by_cases hc : d ≤ now ∧ s.runActive = true
        · simp [hc, countStarts, countDones]
        · simp [hc, countStarts, countDones]

/-- Head decomposition of trace validity, shared helper. -/
theorem validFrom_cons (s : CState) (stim : Stim) (rest : List Stim)
    (h : ValidFrom s (stim :: rest)) :
    (∀ j, stim = Stim.runDone j → s.done = false ∧ s.runActive = true) ∧
    ValidFrom (ctrlStep s stim).1 rest := by
  cases stim with
  | cmd now c =>
    refine ⟨fun j hj => (nomatch hj), ?_⟩
    simpa [ValidFrom] using h
  | runDone j =>
    obtain ⟨hj, htail⟩ := h
    exact ⟨fun j2 hj2 => hj, htail⟩
  | tick now =>
    refine ⟨fun j hj => (nomatch hj), ?_⟩
    simpa [ValidFrom] using h

/-- Trace validity is closed under prefixes, shared helper. -/
theorem validFrom_take (stims : List Stim) :
    ∀ (k : Nat) (s : CState), ValidFrom s stims → ValidFrom s (stims.take k) := by
  induction stims with
  | nil => intro k s _; simp [ValidFrom]
  | cons stim rest ih =>
    intro k s h
    obtain ⟨hhead, htail⟩ := validFrom_cons s stim rest h
    cases k with
    | zero => simp [ValidFrom]
    | succ k2 =>
      simp only [List.take_succ_cons]
      cases stim with
      | cmd now c => exact ih k2 _ htail
      | runDone j => exact ⟨hhead j rfl, ih k2 _ htail⟩
      | tick now => exact ih k2 _ htail

/-- Counts in action lists distribute over append, shared helper. -/
theorem countStarts_append (a b : List Act) :
    countStarts (a ++ b) = countStarts a + countStarts b :=
  List.countP_append _ _ _

/-- Trace-level bookkeeping, shared helper: over any valid stimulus trace,
whether a run is active at the end equals runs active at the start plus
runs started minus completions observed. -/
theorem ctrlRun_count (stims : List Stim) :
    ∀ s : CState, ValidFrom s stims →
      (if (ctrlRun s stims).1.runActive then (1 : ℤ) else 0) =
        (if s.runActive then (1 : ℤ) else 0)
          + (countStarts (ctrlRun s stims).2 : ℤ)
          - (countDones stims : ℤ) := by
  induction stims with
  | nil => simp [ctrlRun, countStarts, countDones]
  | cons stim rest ih =>
    intro s hv
    obtain ⟨hhead, htail⟩ := validFrom_cons s stim rest hv
    have h1 := ctrlStep_count s stim hhead
    have h2 := ih (ctrlStep s stim).1 htail
    have hc : ctrlRun s (stim :: rest) =
        ((ctrlRun (ctrlStep s stim).1 rest).1,
          (ctrlStep s stim).2 ++ (ctrlRun (ctrlStep s stim).1 rest).2) := rfl
    rw [hc]
    simp only [countStarts_append]
    have hd : countDones (stim :: rest) = countDones [stim] + countDones rest := by
      simp only [countDones, List.countP_cons, List.countP_nil]
      cases stim with
      | cmd now c => simp
      | runDone j => simp; omega
      | tick now => simp
    rw [hd]
    push_cast
    push_cast at h1 h2
    omega

/-- A controller step emits a run start only when it is observing a run
completion or no run context exists, shared helper. -/
theorem ctrlStep_start_source (s : CState) (stim : Stim)
    (h : Act.startRunAct ∈ (ctrlStep s stim).2) :
    (∃ j, stim = Stim.runDone j) ∨ s.runActive = false := by
  by_cases hd : s.done = true
  · simp only [ctrlStep, hd, if_true] at h
    simp at h
  · have hd2 : s.done = false := by simp_all
    cases stim with
    | cmd now c =>
      cases c with
      | none =>
        simp only [ctrlStep, hd2, Bool.false_eq_true, if_false] at h
        split_ifs at h <;> simp_all
      | some u =>
        cases u with
        | pause p =>
          simp only [ctrlStep, hd2, Bool.false_eq_true, if_false] at h
          split_ifs at h <;> simp_all
        | restart =>
          simp only [ctrlStep, hd2, Bool.false_eq_true, if_false] at h
          split_ifs at h with ha <;> simp_all
        | quit =>
          simp only [ctrlStep, hd2, Bool.false_eq_true, if_false] at h
          split_ifs at h <;> simp_all
    | runDone j => exact Or.inl ⟨j, rfl⟩
    | tick now =>
      simp only [ctrlStep, hd2, Bool.false_eq_true, if_false] at h
      cases hdl : s.deadline with
      | none =>
        rw [hdl] at h
        simp at h
      | some d =>
        rw [hdl] at h
        by_cases hc : d ≤ now ∧ s.runActive = true
        · simp [hc] at h
        · simp [hc] at h

/-- C1: the lifecycle controller keeps at most one run active at any
time. Along every valid stimulus trace, after every prefix the number of
runs started (the auto-started one included) minus the completions the
controller has observed equals 0 or 1 (it is 1 exactly while the
controller holds a run context); a step starts a new run only while it is
observing a run completion or while no run is active (never eagerly); and
a Restart that arrives while a run is active sends exactly a Cancel plus
a status message to that run, starting nothing and keeping the same
single run active. A second Restart during cancellation is again covered
by the prefix invariant. -/
theorem C1_lifecycle_controller (auto : Bool) (stims : List Stim)
    (hvalid : ValidFrom (ctrlInit auto) stims) :
    (∀ k : Nat,
      activeRuns auto (stims.take k)
          (ctrlRun (ctrlInit auto) (stims.take k)).2 =
        (if (ctrlRun (ctrlInit auto) (stims.take k)).1.runActive
          then 1 else 0) ∧
      activeRuns auto (stims.take k)
          (ctrlRun (ctrlInit auto) (stims.take k)).2 ≤ 1) ∧
    (∀ s stim, Act.startRunAct ∈ (ctrlStep s stim).2 →
      (∃ j, stim = Stim.runDone j) ∨ s.runActive = false) ∧
    (∀ s now, s.runActive = true → s.done = false →
      (ctrlStep s (Stim.cmd now (some UiCommand.restart))).2 =
        [Act.sendCancelCtl, Act.infoMsg] ∧
      (ctrlStep s (Stim.cmd now (some UiCommand.restart))).1.runActive
        = true) := by
  refine ⟨?_, fun s stim h => ctrlStep_start_source s stim h, ?_⟩
  · intro k
    have hv2 := validFrom_take stims k (ctrlInit auto) hvalid
    have h := ctrlRun_count (stims.take k) (ctrlInit auto) hv2
    simp only [ctrlInit] at h
    have heq : activeRuns auto (stims.take k)
        (ctrlRun (ctrlInit auto) (stims.take k)).2 =
        (if (ctrlRun (ctrlInit auto) (stims.take k)).1.runActive
          then 1 else 0) := by
      unfold activeRuns
      exact h.symm
    refine ⟨heq, ?_⟩
    rw [heq]
    split_ifs <;> omega
  · intro s now ha hd
    simp [ctrlStep, hd, ha]

/-- C1 witness: a run is auto-started, a Restart arrives while it is
active, and its completion is then observed (starting the replacement
run): after every step at most one run is active. -/
theorem C1_lifecycle_controller_witness :
    activeRuns true
        ([Stim.cmd 0 (some UiCommand.restart),
          Stim.runDone JoinOutcome.okResult].take 2)
        (ctrlRun (ctrlInit true)
          ([Stim.cmd 0 (some UiCommand.restart),
            Stim.runDone JoinOutcome.okResult].take 2)).2 ≤ 1 :=
  ((C1_lifecycle_controller true
      [Stim.cmd 0 (some UiCommand.restart),
        Stim.runDone JoinOutcome.okResult]
      (by simp [ValidFrom, ctrlStep, ctrlInit])).1 2).2

end CfSpeed
